import Mathlib

/-!
# Verification of the carbon-data-rag retrieval-and-scoring core

Shallow embedding of `src/rag_service.py` (class `CarbonRAGService`).
Distances produced by the vector index and all Python floats are modelled as
rationals; the embedding step (text → vector) together with the index's
distance computation is abstracted into a query context that pairs every
indexed record with its distance to the embedded query text. The HTTP layer
(`src/api.py`) is not modelled: as committed it fails at import (stray text
after the module docstring; `ConfigDict` is referenced but never imported),
so none of its declared request validation is operative.
-/

/-- Python `round(x, n)`: round half to even at `n` decimal digits
(idealised over ℚ; CPython rounds the decimal expansion half-to-even). -/
def roundHalfEven (x : ℚ) : ℤ :=
  let f := ⌊x⌋
  let r := x - f
  if r < 1/2 then f
  else if 1/2 < r then f + 1
  else if f % 2 = 0 then f else f + 1

/-- Python round(x, ndigits), over ℚ. -/
def pyRound (x : ℚ) (ndigits : ℕ) : ℚ :=
  (roundHalfEven (x * 10 ^ ndigits) : ℚ) / 10 ^ ndigits

/-- Metadata stored with an indexed document (a ChromaDB metadata dict);
every field may be absent, `rag_service.query` applies `dict.get` defaults. -/
structure Metadata where
  factor : Option ℚ
  unit : Option String
  description : Option String
  category : Option String
  source : Option String
deriving DecidableEq, Repr

/-- One indexed entry of the `carbon_factors` collection. -/
structure Record where
  id : String
  document : String
  metadata : Metadata
deriving DecidableEq, Repr

/-- A query evaluation context: the collection's records, each paired with the
L2 distance between its stored vector and the embedding of the query text.
(The sentence-transformer embedding itself is abstracted; only the distances
it induces matter to the retrieval code.) -/
abbrev QueryCtx := List (Record × ℚ)

/-- The call `collection.query(n_results, where)`: the `n_results` nearest eligible
records in ascending distance order (stable in the stored order). -/
def chromaQuery (ctx : QueryCtx) (where_filter : Option String) (n_results : ℕ) :
    QueryCtx :=
  let eligible :=
    match where_filter with
    | none => ctx
    | some c => ctx.filter (fun p => p.1.metadata.category = some c)
  (eligible.insertionSort (fun a b => a.2 ≤ b.2)).take n_results

/-- Default `min_similarity` of `CarbonRAGService.query` (source line 63). -/
def SEARCH_DEFAULT_MIN_SIMILARITY : ℚ := 1/2

/-- The `min_similarity=0.3` literal passed to `self.query` inside
`CarbonRAGService.calculate` (source line 151). -/
def CALCULATE_MIN_SIMILARITY : ℚ := 3/10

/-- One entry of the list returned by `CarbonRAGService.query`
(the dict built at source lines 119-127). -/
structure QueryResult where
  factor : Option ℚ
  unit : String
  description : String
  category : String
  source : String
  similarity_score : ℚ
  raw_metadata : Metadata
deriving DecidableEq, Repr

/-- The dict appended to `formatted_results` for a surviving candidate
(source lines 119-127); `similarity` is the unrounded `1 / (1 + distance)`. -/
def formatResult (metadata : Metadata) (similarity : ℚ) : QueryResult :=
  { factor := metadata.factor
    unit := metadata.unit.getD ""
    description := metadata.description.getD ""
    category := metadata.category.getD ""
    source := metadata.source.getD "DEFRA 2024"
    similarity_score := pyRound similarity 3
    raw_metadata := metadata }

/-- The `where_filter` built at source lines 82-84: `if category_filter:` is
falsy in Python both for `None` and for the empty string. -/
def whereFilter (category_filter : Option String) : Option String :=
  match category_filter with
  | none => none
  | some c => if c = "" then none else some c

/-- Embedding of `CarbonRAGService.query` (source lines 58-130): embed the query (absorbed
into `ctx`), fetch `top_k * 2` nearest neighbours under the optional category
filter, convert each distance to `similarity = 1 / (1 + d)`, drop candidates
with `similarity < min_similarity`, and truncate to `top_k`. -/
def CarbonRAGService.query (ctx : QueryCtx) (q : String) (top_k : ℕ := 5)
    (category_filter : Option String := none)
    (min_similarity : ℚ := SEARCH_DEFAULT_MIN_SIMILARITY) : List QueryResult :=
  let results := chromaQuery ctx (whereFilter category_filter) (top_k * 2)
  let formatted_results := results.filterMap (fun p =>
    let similarity := 1 / (1 + p.2)
    if similarity < min_similarity then none
    else some (formatResult p.1.metadata similarity))
  formatted_results.take top_k

/-- The success dict built by `CarbonRAGService.calculate`
(source lines 165-175). -/
structure CalcSuccess where
  query : String
  value : ℚ
  co2e_kg : ℚ
  factor_used : QueryResult
  alternative_factors : List QueryResult
  car_km_average : ℚ
  trees_year_offset : ℚ
deriving DecidableEq, Repr

/-- Outcome of `CarbonRAGService.calculate`: the no-match error dict
(source lines 154-157), the `TypeError` raised by `None * value` when the best
match carries no factor (source line 163), or the success dict. -/
inductive CalcOutcome where
  | notFound (error : String) (query : String)
  | typeError
  | ok (result : CalcSuccess)
deriving DecidableEq, Repr

/-- The `"error"` string of the no-match dict (source line 155). -/
def NOT_FOUND_MESSAGE : String := "Aucun facteur trouvé pour cette requête"

/-- Body of `CarbonRAGService.calculate` after its internal `self.query` call
(source lines 153-175): empty retrieval → error dict; otherwise multiply the
best factor by `value` at full precision and round only the displayed fields
(`co2e_kg` at 2 decimals, `car_km_average` at 1, `trees_year_offset` at 2). -/
def calculateFromFactors (q : String) (value : ℚ) (factors : List QueryResult) :
    CalcOutcome :=
  match factors with
  | [] => .notFound NOT_FOUND_MESSAGE q
  | best_factor :: rest =>
    match best_factor.factor with
    | none => .typeError
    | some f =>
      let co2e_kg := f * value
      .ok { query := q
            value := value
            co2e_kg := pyRound co2e_kg 2
            factor_used := best_factor
            alternative_factors := rest
            car_km_average := pyRound (co2e_kg / (17/100)) 1
            trees_year_offset := pyRound (co2e_kg / 21) 2 }

/-- Embedding of `CarbonRAGService.calculate` (source lines 132-175): retrieval with the
relaxed `min_similarity=0.3` threshold, then the arithmetic above. No
validation of `value` happens here. -/
def CarbonRAGService.calculate (ctx : QueryCtx) (q : String) (value : ℚ)
    (top_k : ℕ := 3) : CalcOutcome :=
  calculateFromFactors q value
    (CarbonRAGService.query ctx q top_k none CALCULATE_MIN_SIMILARITY)

/-- Embedding of `CarbonRAGService.get_available_categories` (source lines 177-191):
`collection.get(limit=100)` samples the first 100 stored records, collects the
`category` values present in their metadata, and returns them deduplicated and
sorted. -/
def CarbonRAGService.get_available_categories (ctx : QueryCtx) : List String :=
  let sample := (ctx.map (fun p => p.1)).take 100
  let categories := sample.filterMap (fun r => r.metadata.category)
  categories.dedup.insertionSort (fun a b => a ≤ b)

/-! ### Concrete fixtures used to exercise the pipeline -/

/-- An indexed DEFRA-style record: an average car, factor 1 kg CO2e per km. -/
def mdCar : Metadata :=
  ⟨some 1, some "km", some "average car", some "transport", some "DEFRA 2024"⟩

def recCar : Record := ⟨"f1", "doc car", mdCar⟩

/-- A second record in a different category. -/
def mdWater : Metadata :=
  ⟨some (1/10), some "L", some "tap water", some "water", some "DEFRA 2024"⟩

def recWater : Record := ⟨"f2", "doc water", mdWater⟩

/-- An index of 101 records in which only the 101st record (outside the
100-record sample window of `get_available_categories`) carries the
`"water"` category. -/
def ctxC8 : QueryCtx := List.replicate 100 (recCar, 0) ++ [(recWater, 0)]

/-- A record whose metadata dict has no `factor` key at all. -/
def mdNoFactor : Metadata := ⟨none, none, none, none, none⟩

def recNoFactor : Record := ⟨"f3", "doc nofactor", mdNoFactor⟩

/-! ### Properties of the rounding function -/

theorem roundHalfEven_cases (x : ℚ) :
    (roundHalfEven x = ⌊x⌋ ∧ x - ⌊x⌋ ≤ 1/2) ∨
      (roundHalfEven x = ⌊x⌋ + 1 ∧ 1/2 ≤ x - ⌊x⌋) := by
  simp only [roundHalfEven]
  by_cases h1 : x - (⌊x⌋ : ℚ) < 1/2
  · exact .inl ⟨by rw [if_pos h1], le_of_lt h1⟩
  by_cases h2 : 1/2 < x - (⌊x⌋ : ℚ)
  · exact .inr ⟨by rw [if_neg h1, if_pos h2], le_of_lt h2⟩
  have he : x - (⌊x⌋ : ℚ) = 1/2 := le_antisymm (not_lt.mp h2) (not_lt.mp h1)
  by_cases h3 : ⌊x⌋ % 2 = 0
  · exact .inl ⟨by rw [if_neg h1, if_neg h2, if_pos h3], le_of_eq he⟩
  · exact .inr ⟨by rw [if_neg h1, if_neg h2, if_neg h3], ge_of_eq he⟩

theorem floor_le_roundHalfEven (x : ℚ) : ⌊x⌋ ≤ roundHalfEven x := by
  rcases roundHalfEven_cases x with ⟨e, _⟩ | ⟨e, _⟩ <;> omega

theorem roundHalfEven_le_floor_add_one (x : ℚ) : roundHalfEven x ≤ ⌊x⌋ + 1 := by
  rcases roundHalfEven_cases x with ⟨e, _⟩ | ⟨e, _⟩ <;> omega

theorem sub_half_le_roundHalfEven (x : ℚ) : x - 1/2 ≤ (roundHalfEven x : ℚ) := by
  rcases roundHalfEven_cases x with ⟨e, b⟩ | ⟨e, b⟩ <;> rw [e]
  · linarith
  · push_cast
    have := Int.lt_floor_add_one x
    linarith

theorem roundHalfEven_mono {x y : ℚ} (h : x ≤ y) :
    roundHalfEven x ≤ roundHalfEven y := by
  have hf : ⌊x⌋ ≤ ⌊y⌋ := Int.floor_mono h
  rcases roundHalfEven_cases x with ⟨ex, bx⟩ | ⟨ex, bx⟩ <;>
    rcases roundHalfEven_cases y with ⟨ey, bb⟩ | ⟨ey, bb⟩
  · omega
  · omega
  · rcases lt_or_eq_of_le hf with hlt | heq
    · omega
    · have hfx : (⌊x⌋ : ℚ) = (⌊y⌋ : ℚ) := by rw [heq]
      have hxy : x = y := by linarith
      rw [hxy] at ex
      rw [ex] at ey
      omega
  · omega

theorem pyRound_mono {x y : ℚ} (n : ℕ) (h : x ≤ y) : pyRound x n ≤ pyRound y n := by
  unfold pyRound
  have h10 : (0 : ℚ) < 10 ^ n := by positivity
  have hm : x * 10 ^ n ≤ y * 10 ^ n :=
    mul_le_mul_of_nonneg_right h (le_of_lt h10)
  exact (div_le_div_right h10).mpr (by exact_mod_cast roundHalfEven_mono hm)

theorem int_div_le_pyRound {k : ℤ} {x : ℚ} {n : ℕ} (h : (k : ℚ) / 10 ^ n ≤ x) :
    (k : ℚ) / 10 ^ n ≤ pyRound x n := by
  unfold pyRound
  have h10 : (0 : ℚ) < 10 ^ n := by positivity
  have hk : (k : ℚ) ≤ x * 10 ^ n := (div_le_iff h10).mp h
  have h1 : k ≤ ⌊x * 10 ^ n⌋ := Int.le_floor.mpr hk
  have h2 : k ≤ roundHalfEven (x * 10 ^ n) :=
    le_trans h1 (floor_le_roundHalfEven _)
  exact (div_le_div_right h10).mpr (by exact_mod_cast h2)

theorem sub_le_pyRound (x : ℚ) (n : ℕ) :
    x - 1 / (2 * 10 ^ n) ≤ pyRound x n := by
  unfold pyRound
  have h10 : (0 : ℚ) < 10 ^ n := by positivity
  have hb := sub_half_le_roundHalfEven (x * 10 ^ n)
  have h2 : (x * 10 ^ n - 1/2) / 10 ^ n ≤ (roundHalfEven (x * 10 ^ n) : ℚ) / 10 ^ n :=
    (div_le_div_right h10).mpr hb
  refine le_trans (le_of_eq ?_) h2
  field_simp
  ring

theorem pyRound_zero (n : ℕ) : pyRound 0 n = 0 := by
  norm_num [pyRound, roundHalfEven]

/-! ### List-level helper lemmas -/

theorem filterMap_guard_sublist_map {α β : Type} (g : α → β) (c : α → Prop)
    [DecidablePred c] (l : List α) :
    List.Sublist (l.filterMap fun a => if c a then none else some (g a)) (l.map g) := by
  induction l with
  | nil => simp
  | cons a t ih =>
    simp only [List.filterMap_cons, List.map_cons]
    by_cases h : c a
    · rw [if_pos h]
      exact ih.cons _
    · rw [if_neg h]
      exact ih.cons₂ _

theorem filterMap_guard_mono {α β : Type} (g : α → β) (c₁ c₂ : α → Prop)
    [DecidablePred c₁] [DecidablePred c₂] (himp : ∀ a, ¬ c₂ a → ¬ c₁ a)
    (l : List α) :
    List.Sublist (l.filterMap fun a => if c₂ a then none else some (g a))
      (l.filterMap fun a => if c₁ a then none else some (g a)) := by
  induction l with
  | nil => simp
  | cons a t ih =>
    simp only [List.filterMap_cons]
    by_cases h2 : c₂ a
    · rw [if_pos h2]
      by_cases h1 : c₁ a
      · rw [if_pos h1]
        exact ih
      · rw [if_neg h1]
        exact ih.cons _
    · rw [if_neg h2, if_neg (himp a h2)]
      exact ih.cons₂ _

/-! ### Properties of the modelled index query -/

theorem mem_ctx_of_mem_chromaQuery {ctx : QueryCtx} {wf : Option String}
    {n : ℕ} {p : Record × ℚ} (h : p ∈ chromaQuery ctx wf n) : p ∈ ctx := by
  cases wf with
  | none =>
    simp only [chromaQuery] at h
    exact (List.mem_insertionSort _).mp ((List.take_sublist _ _).subset h)
  | some c =>
    simp only [chromaQuery] at h
    have h1 := (List.mem_insertionSort _).mp ((List.take_sublist _ _).subset h)
    exact (List.mem_filter.mp h1).1

theorem chromaQuery_sorted (ctx : QueryCtx) (wf : Option String) (n : ℕ) :
    (chromaQuery ctx wf n).Sorted (fun a b => a.2 ≤ b.2) := by
  haveI htot : IsTotal (Record × ℚ) (fun a b => a.2 ≤ b.2) :=
    ⟨fun a b => le_total a.2 b.2⟩
  haveI htrans : IsTrans (Record × ℚ) (fun a b => a.2 ≤ b.2) :=
    ⟨fun a b c hab hbc => le_trans hab hbc⟩
  unfold chromaQuery
  exact List.Pairwise.sublist (List.take_sublist _ _)
    (List.sorted_insertionSort _ _)

/-- A member of the list returned by `query` comes from a fetched neighbour
that passed the unrounded similarity gate, and is its formatted dict. -/
theorem exists_of_mem_query {ctx : QueryCtx} {q : String} {top_k : ℕ}
    {cf : Option String} {ms : ℚ} {r : QueryResult}
    (h : r ∈ CarbonRAGService.query ctx q top_k cf ms) :
    ∃ p : Record × ℚ, p ∈ chromaQuery ctx (whereFilter cf) (top_k * 2) ∧
      ¬ 1 / (1 + p.2) < ms ∧ r = formatResult p.1.metadata (1 / (1 + p.2)) := by
  simp only [CarbonRAGService.query] at h
  have h1 := (List.take_sublist _ _).subset h
  rw [List.mem_filterMap] at h1
  obtain ⟨p, hp, he⟩ := h1
  by_cases hc : 1 / (1 + p.2) < ms
  · rw [if_pos hc] at he
    cases he
  · rw [if_neg hc] at he
    exact ⟨p, hp, hc, (Option.some_injective _ he).symm⟩

theorem query_length_le (ctx : QueryCtx) (q : String) (top_k : ℕ)
    (cf : Option String) (ms : ℚ) :
    (CarbonRAGService.query ctx q top_k cf ms).length ≤ top_k := by
  simp only [CarbonRAGService.query]
  apply List.length_take_le

/-- At distance `3/2` the similarity is `2/5 = 0.4`: above the calculate
threshold `0.3`, below the search default `0.5`. -/
theorem query_recCar_calc_threshold :
    CarbonRAGService.query [(recCar, 3/2)] "car trip" 3 none CALCULATE_MIN_SIMILARITY
      = [formatResult mdCar (2/5)] := by
  norm_num [CarbonRAGService.query, chromaQuery, whereFilter, List.insertionSort,
    List.orderedInsert, List.take_of_length_le, List.filterMap_cons, recCar,
    CALCULATE_MIN_SIMILARITY]

theorem query_recCar_search_threshold :
    CarbonRAGService.query [(recCar, 3/2)] "car trip" 5 none SEARCH_DEFAULT_MIN_SIMILARITY
      = [] := by
  norm_num [CarbonRAGService.query, chromaQuery, whereFilter, List.insertionSort,
    List.orderedInsert, List.take_of_length_le, List.filterMap_cons, recCar,
    SEARCH_DEFAULT_MIN_SIMILARITY]

theorem calculate_recCar_eval :
    CarbonRAGService.calculate [(recCar, 3/2)] "car trip" 100 3 =
      CalcOutcome.ok
        { query := "car trip"
          value := 100
          co2e_kg := pyRound 100 2
          factor_used := formatResult mdCar (2/5)
          alternative_factors := []
          car_km_average := pyRound (100 / (17/100)) 1
          trees_year_offset := pyRound (100 / 21) 2 } := by
  norm_num [CarbonRAGService.calculate, CarbonRAGService.query, chromaQuery,
    whereFilter, List.insertionSort, List.orderedInsert, List.take_of_length_le,
    List.filterMap_cons, CALCULATE_MIN_SIMILARITY, calculateFromFactors,
    formatResult, mdCar, recCar]

theorem calculate_recCar_zero_eval :
    CarbonRAGService.calculate [(recCar, 3/2)] "car trip" 0 3 =
      CalcOutcome.ok
        { query := "car trip"
          value := 0
          co2e_kg := 0
          factor_used := formatResult mdCar (2/5)
          alternative_factors := []
          car_km_average := 0
          trees_year_offset := 0 } := by
  norm_num [CarbonRAGService.calculate, CarbonRAGService.query, chromaQuery,
    whereFilter, List.insertionSort, List.orderedInsert, List.take_of_length_le,
    List.filterMap_cons, CALCULATE_MIN_SIMILARITY, calculateFromFactors,
    formatResult, mdCar, recCar, pyRound, roundHalfEven]

/-- At distance `1` the similarity is exactly `1/2`, and `round(0.5, 3) = 0.5`. -/
theorem query_recCar_dist_one :
    CarbonRAGService.query [(recCar, 1)] "car trip" 3 none (1/2)
      = [formatResult mdCar (1/2)] := by
  norm_num [CarbonRAGService.query, chromaQuery, whereFilter, List.insertionSort,
    List.orderedInsert, List.take_of_length_le, List.filterMap_cons, recCar]

/-! ### Claims -/

/-- Claim C2: for every query text and value, if the retrieval step inside
`calculate` yields an empty result list, then `calculate` returns the
`notFound` variant (the `{"error": ..., "query": ...}` dict, distinguishable
from a success dict) carrying the original query text; no exception is
raised. -/
theorem c2_empty_retrieval_notFound (ctx : QueryCtx) (q : String) (value : ℚ)
    (top_k : ℕ)
    (h : CarbonRAGService.query ctx q top_k none CALCULATE_MIN_SIMILARITY = []) :
    CarbonRAGService.calculate ctx q value top_k =
      CalcOutcome.notFound NOT_FOUND_MESSAGE q := by
  unfold CarbonRAGService.calculate
  rw [h]
  rfl

theorem c2_witness :
    CarbonRAGService.query [] "kayak trip" 3 none CALCULATE_MIN_SIMILARITY = [] ∧
      CarbonRAGService.calculate [] "kayak trip" 5 3 =
        CalcOutcome.notFound NOT_FOUND_MESSAGE "kayak trip" :=
  ⟨rfl, c2_empty_retrieval_notFound [] "kayak trip" 5 3 rfl⟩

/-- Claim C5: `calculate` invokes the retrieval with threshold `0.3`, strictly
lower than the `0.5` default used for plain search; the two thresholds are
distinct constants, and the relaxation is observable: a record at similarity
`0.4` is invisible to default search but found (and used) by `calculate`. -/
theorem c5_two_distinct_thresholds :
    CALCULATE_MIN_SIMILARITY = 3/10 ∧
    SEARCH_DEFAULT_MIN_SIMILARITY = 1/2 ∧
    CALCULATE_MIN_SIMILARITY < SEARCH_DEFAULT_MIN_SIMILARITY ∧
    (∀ (ctx : QueryCtx) (q : String) (value : ℚ) (top_k : ℕ),
      CarbonRAGService.calculate ctx q value top_k =
        calculateFromFactors q value
          (CarbonRAGService.query ctx q top_k none CALCULATE_MIN_SIMILARITY)) ∧
    CarbonRAGService.query [(recCar, 3/2)] "car trip" 5 none
        SEARCH_DEFAULT_MIN_SIMILARITY = [] ∧
    CarbonRAGService.query [(recCar, 3/2)] "car trip" 3 none
        CALCULATE_MIN_SIMILARITY = [formatResult mdCar (2/5)] ∧
    (∃ r : CalcSuccess, CarbonRAGService.calculate [(recCar, 3/2)] "car trip" 100 3 =
      CalcOutcome.ok r) := by
  refine ⟨rfl, rfl, by norm_num [CALCULATE_MIN_SIMILARITY, SEARCH_DEFAULT_MIN_SIMILARITY],
    fun ctx q value top_k => rfl, query_recCar_search_threshold,
    query_recCar_calc_threshold, ?_⟩
  exact ⟨_, calculate_recCar_eval⟩

/-- Claim C7: for a fixed query, `top_k`, category filter and index, raising
`min_similarity` never increases the number of results. -/
theorem c7_threshold_monotone (ctx : QueryCtx) (q : String) (top_k : ℕ)
    (cf : Option String) (t1 t2 : ℚ) (h : t1 ≤ t2) :
    (CarbonRAGService.query ctx q top_k cf t2).length ≤
      (CarbonRAGService.query ctx q top_k cf t1).length := by
  simp only [CarbonRAGService.query]
  rw [List.length_take, List.length_take]
  refine min_le_min (le_refl _) (List.Sublist.length_le ?_)
  exact filterMap_guard_mono
    (fun p : Record × ℚ => formatResult p.1.metadata (1 / (1 + p.2)))
    (fun p : Record × ℚ => 1 / (1 + p.2) < t1)
    (fun p : Record × ℚ => 1 / (1 + p.2) < t2)
    (fun p hp hlt => hp (lt_of_lt_of_le hlt h)) _

/-- Claim C1 fails as stated: with `min_similarity = 0.5004` (a valid threshold
in `[0,1]`) and one record at distance `1249/1251` (unrounded similarity
exactly `0.5004`, which passes the gate), the single returned result's
reported `similarity_score` field is `round(0.5004, 3) = 0.5`, strictly below
`min_similarity`. -/
theorem c1_counterexample :
    CarbonRAGService.query [(recCar, 1249/1251)] "car trip" 1 none (1251/2500)
      = [formatResult mdCar (1251/2500)] ∧
    (formatResult mdCar (1251/2500)).similarity_score = 1/2 ∧
    ((1:ℚ)/2 < 1251/2500) := by
  refine ⟨?_, ?_, by norm_num⟩
  · norm_num [CarbonRAGService.query, chromaQuery, whereFilter, List.insertionSort,
      List.orderedInsert, List.take_of_length_le, List.filterMap_cons, recCar]
  · norm_num [formatResult, pyRound, roundHalfEven, mdCar]

/-- Claim C1 (amended): `search` returns at most `top_k` results; every returned
result passed the unrounded similarity gate, so its reported score is at least
`min_similarity - 1/2000`; and whenever `min_similarity` is a multiple of
`0.001` (three decimal digits, as all thresholds quoted in the spec are) the
reported `similarity_score` itself is `≥ min_similarity`. -/
theorem c1_query_top_k_and_threshold (ctx : QueryCtx) (q : String) (top_k : ℕ)
    (cf : Option String) (ms : ℚ) :
    (CarbonRAGService.query ctx q top_k cf ms).length ≤ top_k ∧
    (∀ r ∈ CarbonRAGService.query ctx q top_k cf ms,
      ms - 1/2000 ≤ r.similarity_score) ∧
    (∀ k : ℤ, ms = (k : ℚ) / 1000 →
      ∀ r ∈ CarbonRAGService.query ctx q top_k cf ms,
        ms ≤ r.similarity_score) := by
  refine ⟨query_length_le ctx q top_k cf ms, ?_, ?_⟩
  · intro r hr
    obtain ⟨p, hp, hgate, hre⟩ := exists_of_mem_query hr
    have hms : ms ≤ 1 / (1 + p.2) := not_lt.mp hgate
    have hsub := sub_le_pyRound (1 / (1 + p.2)) 3
    rw [hre]
    simp only [formatResult]
    have h2000 : (1:ℚ) / (2 * 10 ^ 3) = 1/2000 := by norm_num
    rw [h2000] at hsub
    linarith
  · intro k hk r hr
    obtain ⟨p, hp, hgate, hre⟩ := exists_of_mem_query hr
    have hms : ms ≤ 1 / (1 + p.2) := not_lt.mp hgate
    rw [hre]
    simp only [formatResult]
    have hdiv : (k : ℚ) / 10 ^ 3 ≤ 1 / (1 + p.2) := by
      rw [show ((10:ℚ) ^ 3) = 1000 by norm_num, ← hk]
      exact hms
    have hpr := int_div_le_pyRound hdiv
    rw [hk, show ((1000:ℚ)) = 10 ^ 3 by norm_num]
    exact hpr

theorem c1_witness :
    (CarbonRAGService.query [(recCar, 1)] "car trip" 3 none (1/2)).length ≤ 3 ∧
    ((1:ℚ)/2 ≤ (formatResult mdCar (1/2)).similarity_score) := by
  have h := c1_query_top_k_and_threshold [(recCar, 1)] "car trip" 3 none (1/2)
  refine ⟨h.1, ?_⟩
  have hm : formatResult mdCar (1/2) ∈
      CarbonRAGService.query [(recCar, 1)] "car trip" 3 none (1/2) := by
    rw [query_recCar_dist_one]
    exact List.mem_singleton_self _
  exact h.2.2 500 (by norm_num) _ hm

/-- Claim C10: every reported `similarity_score` equals the raw similarity
`1/(1+d)` rounded to 3 decimal places while the `min_similarity` gate compares
the unrounded value; consequently, for a threshold with more than 3 decimal
places (here `0.7002`) a returned result's reported score (`0.7`) can be
strictly below `min_similarity` although the unrounded similarity passed. -/
theorem c10_rounding_vs_gate :
    (∀ (ctx : QueryCtx) (q : String) (top_k : ℕ) (cf : Option String) (ms : ℚ)
      (r : QueryResult), r ∈ CarbonRAGService.query ctx q top_k cf ms →
      ∃ p : Record × ℚ, p ∈ chromaQuery ctx (whereFilter cf) (top_k * 2) ∧
        r.similarity_score = pyRound (1 / (1 + p.2)) 3 ∧ ms ≤ 1 / (1 + p.2)) ∧
    (CarbonRAGService.query [(recCar, 1499/3501)] "car trip" 1 none (3501/5000)
        = [formatResult mdCar (3501/5000)] ∧
      (formatResult mdCar (3501/5000)).similarity_score = 7/10 ∧
      ((7:ℚ)/10 < 3501/5000)) := by
  constructor
  · intro ctx q top_k cf ms r hr
    obtain ⟨p, hp, hgate, hre⟩ := exists_of_mem_query hr
    exact ⟨p, hp, by rw [hre]; simp only [formatResult], not_lt.mp hgate⟩
  · refine ⟨?_, ?_, by norm_num⟩
    · norm_num [CarbonRAGService.query, chromaQuery, whereFilter,
        List.insertionSort, List.orderedInsert, List.take_of_length_le,
        List.filterMap_cons, recCar]
    · norm_num [formatResult, pyRound, roundHalfEven, mdCar]

theorem c10_witness :
    ∃ p : Record × ℚ, p ∈ chromaQuery [(recCar, 1)] (whereFilter none) (3 * 2) ∧
      (formatResult mdCar (1/2)).similarity_score = pyRound (1 / (1 + p.2)) 3 ∧
      (1:ℚ)/2 ≤ 1 / (1 + p.2) := by
  refine c10_rounding_vs_gate.1 [(recCar, 1)] "car trip" 3 none (1/2) _ ?_
  rw [query_recCar_dist_one]
  exact List.mem_singleton_self _

theorem c7_witness :
    (CarbonRAGService.query [(recCar, 3/2)] "car trip" 10 none (8/10)).length ≤
      (CarbonRAGService.query [(recCar, 3/2)] "car trip" 10 none (3/10)).length :=
  c7_threshold_monotone [(recCar, 3/2)] "car trip" 10 none (3/10) (8/10)
    (by norm_num)

/-- Claim C3 fails as stated: the core `calculate` performs no validation of
`value`. With `value = 0` it runs the full retrieval pipeline and returns a
success dict built from the index's record (and with the empty index the same
call returns the no-match dict, showing the outcome depends on the Vector
Index, i.e. the index is queried). -/
theorem c3_counterexample :
    CarbonRAGService.calculate [(recCar, 3/2)] "car trip" 0 3 =
      CalcOutcome.ok
        { query := "car trip"
          value := 0
          co2e_kg := 0
          factor_used := formatResult mdCar (2/5)
          alternative_factors := []
          car_km_average := 0
          trees_year_offset := 0 } ∧
    CarbonRAGService.calculate [] "car trip" 0 3 =
      CalcOutcome.notFound NOT_FOUND_MESSAGE "car trip" := by
  exact ⟨calculate_recCar_zero_eval, rfl⟩

/-- Shape of any successful `calculate` outcome, read off the code. -/
theorem calculateFromFactors_ok {q : String} {value : ℚ}
    {factors : List QueryResult} {r : CalcSuccess}
    (h : calculateFromFactors q value factors = CalcOutcome.ok r) :
    ∃ best rest f, factors = best :: rest ∧ best.factor = some f ∧
      r = { query := q
            value := value
            co2e_kg := pyRound (f * value) 2
            factor_used := best
            alternative_factors := rest
            car_km_average := pyRound (f * value / (17/100)) 1
            trees_year_offset := pyRound (f * value / 21) 2 } := by
  cases factors with
  | nil => exact absurd h (by simp [calculateFromFactors])
  | cons best rest =>
    cases hf : best.factor with
    | none =>
      simp only [calculateFromFactors, hf] at h
      exact absurd h (by simp)
    | some f =>
      simp only [calculateFromFactors, hf, CalcOutcome.ok.injEq] at h
      exact ⟨best, rest, f, rfl, hf, h.symm⟩

/-- Claim C3 (amended): the program rejects non-positive `value` nowhere:
the core `calculate` performs no validation (and the HTTP layer of `api.py`,
which declares `value > 0` on `CalculateRequest`, fails at import, so it is
not operative). A call with `value ≤ 0` runs the retrieval pipeline against
the Vector Index, and whenever a success result is produced — the best match's
factor being nonnegative, as ingestion guarantees — the result carries the
non-positive `value` unchanged and a `co2e_kg = round(factor * value, 2) ≤ 0`
instead of an invalid-argument error. -/
theorem c3_nonpositive_value_flows_through (ctx : QueryCtx) (q : String)
    (value : ℚ) (top_k : ℕ) (r : CalcSuccess) (hv : value ≤ 0)
    (hnn : ∀ p ∈ ctx, ∀ f : ℚ, p.1.metadata.factor = some f → 0 ≤ f)
    (h : CarbonRAGService.calculate ctx q value top_k = CalcOutcome.ok r) :
    r.value = value ∧ r.co2e_kg ≤ 0 := by
  unfold CarbonRAGService.calculate at h
  obtain ⟨best, rest, f, hfac, hf, hr⟩ := calculateFromFactors_ok h
  have hmem : best ∈
      CarbonRAGService.query ctx q top_k none CALCULATE_MIN_SIMILARITY := by
    rw [hfac]
    exact List.mem_cons_self _ _
  obtain ⟨p, hp, hgate, hre⟩ := exists_of_mem_query hmem
  have hbf : best.factor = p.1.metadata.factor := by
    rw [hre]
    rfl
  have hf0 : 0 ≤ f := by
    refine hnn p (mem_ctx_of_mem_chromaQuery hp) f ?_
    rw [← hbf]
    exact hf
  subst hr
  refine ⟨rfl, ?_⟩
  have hmul : f * value ≤ 0 := mul_nonpos_iff.mpr (Or.inl ⟨hf0, hv⟩)
  calc pyRound (f * value) 2 ≤ pyRound 0 2 := pyRound_mono 2 hmul
  _ = 0 := pyRound_zero 2

theorem c3_witness :
    ({ query := "car trip"
       value := 0
       co2e_kg := 0
       factor_used := formatResult mdCar (2/5)
       alternative_factors := []
       car_km_average := 0
       trees_year_offset := 0 } : CalcSuccess).value = 0 ∧
    ({ query := "car trip"
       value := 0
       co2e_kg := 0
       factor_used := formatResult mdCar (2/5)
       alternative_factors := []
       car_km_average := 0
       trees_year_offset := 0 } : CalcSuccess).co2e_kg ≤ 0 :=
  c3_nonpositive_value_flows_through [(recCar, 3/2)] "car trip" 0 3 _
    (by norm_num)
    (by
      intro p hp f hf
      rw [List.mem_singleton] at hp
      subst hp
      simp [recCar, mdCar] at hf
      rw [← hf]
      norm_num)
    calculate_recCar_zero_eval

/-- Claim C4 fails as stated: the code rounds `car_km_average` at one decimal
place (`588.2`), while the claimed formula (`co2e_estimate / 0.17` rounded at
2 decimals) gives `588.24`. -/
theorem c4_counterexample :
    CarbonRAGService.calculate [(recCar, 3/2)] "car trip" 100 3 =
      CalcOutcome.ok
        { query := "car trip"
          value := 100
          co2e_kg := 100
          factor_used := formatResult mdCar (2/5)
          alternative_factors := []
          car_km_average := 2941/5
          trees_year_offset := 119/25 } ∧
    pyRound ((100 : ℚ) / (17/100)) 2 = 14706/25 ∧
    ((2941 : ℚ)/5 < 14706/25) := by
  refine ⟨?_, by norm_num [pyRound, roundHalfEven], by norm_num⟩
  rw [calculate_recCar_eval]
  norm_num [pyRound, roundHalfEven]

/-- Claim C4 (amended): on a successful `calculate`, `co2e_kg` is the
full-precision product `factor * value` rounded at 2 decimals, while both
equivalence metrics are computed from the **unrounded** product:
`car_km_average = round(co2e / 0.17, 1)` (one decimal place, not two) and
`trees_year_offset = round(co2e / 21, 2)`. -/
theorem c4_calculate_arithmetic (ctx : QueryCtx) (q : String) (value : ℚ)
    (top_k : ℕ) (r : CalcSuccess)
    (h : CarbonRAGService.calculate ctx q value top_k = CalcOutcome.ok r) :
    ∃ f : ℚ, r.factor_used.factor = some f ∧
      r.co2e_kg = pyRound (f * value) 2 ∧
      r.car_km_average = pyRound (f * value / (17/100)) 1 ∧
      r.trees_year_offset = pyRound (f * value / 21) 2 := by
  unfold CarbonRAGService.calculate at h
  obtain ⟨best, rest, f, hfac, hf, hr⟩ := calculateFromFactors_ok h
  subst hr
  exact ⟨f, by simp [hf], rfl, rfl, rfl⟩

theorem c4_witness :
    ∃ f : ℚ, (formatResult mdCar (2/5)).factor = some f ∧
      pyRound (100 : ℚ) 2 = pyRound (f * 100) 2 ∧
      pyRound ((100 : ℚ) / (17/100)) 1 = pyRound (f * 100 / (17/100)) 1 ∧
      pyRound ((100 : ℚ) / 21) 2 = pyRound (f * 100 / 21) 2 :=
  c4_calculate_arithmetic [(recCar, 3/2)] "car trip" 100 3 _ calculate_recCar_eval

/-- Claim C6: assuming nonnegative vector distances (L2 distances always are),
the `query` result list is sorted by `similarity_score` in weakly descending
order (so any two adjacent entries satisfy `earlier ≥ later`), and the list is
an order-preserving sublist of the formatted neighbour list returned by the
index in ascending-distance order (entries are only dropped, never reordered,
so ties keep the index's original order). -/
theorem c6_query_sorted (ctx : QueryCtx) (q : String) (top_k : ℕ)
    (cf : Option String) (ms : ℚ) (hnn : ∀ p ∈ ctx, (0:ℚ) ≤ p.2) :
    (CarbonRAGService.query ctx q top_k cf ms).Pairwise
      (fun a b => b.similarity_score ≤ a.similarity_score) ∧
    List.Sublist (CarbonRAGService.query ctx q top_k cf ms)
      ((chromaQuery ctx (whereFilter cf) (top_k * 2)).map
        (fun p => formatResult p.1.metadata (1 / (1 + p.2)))) := by
  have hsub : List.Sublist (CarbonRAGService.query ctx q top_k cf ms)
      ((chromaQuery ctx (whereFilter cf) (top_k * 2)).map
        (fun p => formatResult p.1.metadata (1 / (1 + p.2)))) := by
    simp only [CarbonRAGService.query]
    refine List.Sublist.trans (List.take_sublist _ _) ?_
    exact filterMap_guard_sublist_map
      (fun p : Record × ℚ => formatResult p.1.metadata (1 / (1 + p.2)))
      (fun p : Record × ℚ => 1 / (1 + p.2) < ms) _
  refine ⟨List.Pairwise.sublist hsub ?_, hsub⟩
  rw [List.pairwise_map]
  refine List.Pairwise.imp_of_mem ?_
    (chromaQuery_sorted ctx (whereFilter cf) (top_k * 2))
  intro a b ha hb hab
  have ha0 : (0:ℚ) ≤ a.2 := hnn a (mem_ctx_of_mem_chromaQuery ha)
  have h1 : (0:ℚ) < 1 + a.2 := by linarith
  have h2 : 1 / (1 + b.2) ≤ 1 / (1 + a.2) := by
    apply one_div_le_one_div_of_le h1
    linarith
  simp only [formatResult]
  exact pyRound_mono 3 h2

theorem c6_witness :
    (CarbonRAGService.query [(recCar, 3/2)] "car trip" 3 none
        CALCULATE_MIN_SIMILARITY).Pairwise
      (fun a b => b.similarity_score ≤ a.similarity_score) ∧
    List.Sublist (CarbonRAGService.query [(recCar, 3/2)] "car trip" 3 none
        CALCULATE_MIN_SIMILARITY)
      ((chromaQuery [(recCar, 3/2)] (whereFilter none) (3 * 2)).map
        (fun p => formatResult p.1.metadata (1 / (1 + p.2)))) :=
  c6_query_sorted [(recCar, 3/2)] "car trip" 3 none CALCULATE_MIN_SIMILARITY
    (by
      intro p hp
      rw [List.mem_singleton] at hp
      rw [hp]
      norm_num)

theorem filterMap_replicate_some {α β : Type} (n : ℕ) (a : α) (f : α → Option β)
    {b : β} (h : f a = some b) :
    (List.replicate n a).filterMap f = List.replicate n b := by
  induction n with
  | zero => rfl
  | succ n ih => simp [List.replicate_succ, List.filterMap_cons, h, ih]

theorem dedup_replicate_succ {α : Type} [DecidableEq α] (n : ℕ) (a : α) :
    (List.replicate (n + 1) a).dedup = [a] := by
  induction n with
  | zero => simp
  | succ n ih =>
    rw [List.replicate_succ]
    rw [List.dedup_cons_of_mem (by simp [List.mem_replicate])]
    exact ih

/-- Claim C8 fails as stated: `get_available_categories` samples only the first
100 stored records (`collection.get(limit=100)`). On a 101-record index whose
only `"water"`-category record sits at position 101, the returned list is
`["transport"]`: the `"water"` category is carried by an indexed record but
does not appear. -/
theorem c8_counterexample :
    CarbonRAGService.get_available_categories ctxC8 = ["transport"] ∧
    (recWater, (0:ℚ)) ∈ ctxC8 ∧
    recWater.metadata.category = some "water" ∧
    (["transport"] : List String).contains "water" = false := by
  refine ⟨?_, by simp [ctxC8], rfl, by decide⟩
  simp only [CarbonRAGService.get_available_categories, ctxC8]
  rw [List.map_append, List.take_append_of_le_length (by simp)]
  rw [List.map_replicate]
  rw [List.take_of_length_le (by simp)]
  rw [filterMap_replicate_some 100 (recCar, (0:ℚ)).1 _
    (show (recCar, (0:ℚ)).1.metadata.category = some "transport" from rfl)]
  rw [show (100:ℕ) = 99 + 1 from rfl, dedup_replicate_succ]
  simp [List.insertionSort, List.orderedInsert]

/-- Claim C8 (amended): `get_available_categories` returns exactly the distinct
category strings carried by the records in the 100-record sample prefix of the
index (sorted); in particular every returned category is carried by some
record, and the enumeration is exhaustive only for indexes of at most 100
records. -/
theorem c8_categories_of_sample (ctx : QueryCtx) (c : String) :
    c ∈ CarbonRAGService.get_available_categories ctx ↔
      ∃ p ∈ ctx.take 100, p.1.metadata.category = some c := by
  unfold CarbonRAGService.get_available_categories
  rw [List.mem_insertionSort, List.mem_dedup, List.mem_filterMap]
  rw [← List.map_take]
  constructor
  · rintro ⟨a, ha, hc⟩
    rw [List.mem_map] at ha
    obtain ⟨p, hp, rfl⟩ := ha
    exact ⟨p, hp, hc⟩
  · rintro ⟨p, hp, hc⟩
    exact ⟨p.1, List.mem_map_of_mem _ hp, hc⟩

/-- Claim C9: if every indexed record carries a factor value (which the
ingestion pipeline guarantees by skipping factorless rows), `calculate` never
hits the `TypeError` branch: it returns either the no-match dict or a success
dict. On an index whose best match carries no `factor` key, `query` emits the
result with `factor = None` and `calculate` reaches the `None * value`
`TypeError` instead of returning a result. -/
theorem c9_ingested_factor_no_typeError :
    (∀ (ctx : QueryCtx) (q : String) (value : ℚ) (top_k : ℕ),
      (∀ p ∈ ctx, (p.1.metadata.factor).isSome = true) →
        (CarbonRAGService.calculate ctx q value top_k =
            CalcOutcome.notFound NOT_FOUND_MESSAGE q ∨
          ∃ r : CalcSuccess,
            CarbonRAGService.calculate ctx q value top_k = CalcOutcome.ok r)) ∧
    CarbonRAGService.calculate [(recNoFactor, 0)] "mystery" 1 3 =
      CalcOutcome.typeError := by
  constructor
  · intro ctx q value top_k hall
    cases hq : CarbonRAGService.query ctx q top_k none CALCULATE_MIN_SIMILARITY with
    | nil =>
      left
      unfold CarbonRAGService.calculate
      rw [hq]
      rfl
    | cons best rest =>
      right
      have hmem : best ∈
          CarbonRAGService.query ctx q top_k none CALCULATE_MIN_SIMILARITY := by
        rw [hq]
        exact List.mem_cons_self _ _
      obtain ⟨p, hp, hgate, hre⟩ := exists_of_mem_query hmem
      have hbf : best.factor = p.1.metadata.factor := by
        rw [hre]
        rfl
      have hbs : (best.factor).isSome = true := by
        rw [hbf]
        exact hall p (mem_ctx_of_mem_chromaQuery hp)
      obtain ⟨f, hf⟩ := Option.isSome_iff_exists.mp hbs
      refine ⟨{ query := q
                value := value
                co2e_kg := pyRound (f * value) 2
                factor_used := best
                alternative_factors := rest
                car_km_average := pyRound (f * value / (17/100)) 1
                trees_year_offset := pyRound (f * value / 21) 2 }, ?_⟩
      unfold CarbonRAGService.calculate
      rw [hq]
      simp only [calculateFromFactors, hf]
  · norm_num [CarbonRAGService.calculate, CarbonRAGService.query, chromaQuery,
      whereFilter, List.insertionSort, List.orderedInsert, List.take_of_length_le,
      List.filterMap_cons, CALCULATE_MIN_SIMILARITY, calculateFromFactors,
      formatResult, mdNoFactor, recNoFactor]

theorem c9_witness :
    CarbonRAGService.calculate [(recCar, 3/2)] "car trip" 100 3 =
        CalcOutcome.notFound NOT_FOUND_MESSAGE "car trip" ∨
      ∃ r : CalcSuccess,
        CarbonRAGService.calculate [(recCar, 3/2)] "car trip" 100 3 =
          CalcOutcome.ok r :=
  c9_ingested_factor_no_typeError.1 [(recCar, 3/2)] "car trip" 100 3
    (by
      intro p hp
      rw [List.mem_singleton] at hp
      rw [hp]
      rfl)
